import Mathlib

/-!
Shallow embedding of the contact-manager storage layer.

The embedded code is the two store classes of the repository:
`ContactDatabase` (plain store) and `SQLiteContactDatabase` (the
"SQLite-flavored" store, a mock that keeps the same in-memory `Map`).
JavaScript values are modelled as follows:

* a `Map<string, Contact>` is an association list in insertion order:
  `set` on a present key updates the entry in place, on an absent key
  appends at the end; `delete` removes the entry; `values()` is the
  list of values in order;
* `Date` timestamps are natural numbers (millisecond counts); the
  current time of an operation is passed in as an explicit argument;
* `Math.random().toString(36).substr(2)` is an opaque string argument;
* string operations (`toLowerCase`, `includes`, `<`) are implemented
  over the character list;
* `Array.prototype.sort(cmp)` is the stable sort by the comparator
  (ECMAScript guarantees stability; for a consistent comparator the
  stable sorted permutation is unique, so any stable sorting algorithm
  is a faithful model — we use straight insertion sort);
* `JSON.stringify`/`JSON.parse` on contact arrays are abstracted as the
  identity on record lists; an input that does not parse as an array is
  the `none` case of the import argument.
-/

/-- The optional structured address of a contact (`types/contact`). -/
structure Address where
  street : Option String
  city : Option String
  state : Option String
  zipCode : Option String
  country : Option String
deriving DecidableEq, Repr

/-- A stored contact record (`types/contact`, as used by the stores). -/
structure Contact where
  id : String
  firstName : String
  lastName : String
  email : String
  phone : String
  company : Option String
  jobTitle : Option String
  address : Option Address
  notes : Option String
  avatar : Option String
  tags : List String
  createdAt : Nat
  updatedAt : Nat
  isFavorite : Bool
deriving DecidableEq, Repr

/-- The creation payload (`ContactFormData`): everything a `Contact`
has except `id`, the timestamps and the favorite flag; `tags` may be
absent. -/
structure ContactFormData where
  firstName : String
  lastName : String
  email : String
  phone : String
  company : Option String
  jobTitle : Option String
  address : Option Address
  notes : Option String
  avatar : Option String
  tags : Option (List String)
deriving DecidableEq, Repr

/-- `Partial<ContactFormData>`: every field may be absent (`none` =
key not present, retained on update). -/
structure FormPatch where
  firstName : Option String
  lastName : Option String
  email : Option String
  phone : Option String
  company : Option (Option String)
  jobTitle : Option (Option String)
  address : Option (Option Address)
  notes : Option (Option String)
  avatar : Option (Option String)
  tags : Option (List String)
deriving DecidableEq, Repr

/-- The empty partial `{}`. -/
def FormPatch.empty : FormPatch :=
  ⟨none, none, none, none, none, none, none, none, none, none⟩

/-- The search/filter/sort argument (`ContactFilters`). -/
inductive SortKey where
  | firstName
  | lastName
  | email
  | createdAt
  | updatedAt
deriving DecidableEq, Repr

inductive SortOrder where
  | asc
  | desc
deriving DecidableEq, Repr

structure ContactFilters where
  search : Option String
  tags : Option (List String)
  isFavorite : Option Bool
  sortBy : Option SortKey
  sortOrder : Option SortOrder
deriving DecidableEq, Repr

/-- The filter object with every field absent (`{}`). -/
def ContactFilters.empty : ContactFilters := ⟨none, none, none, none, none⟩

/-- The in-memory collection: a JS `Map<string, Contact>` in insertion
order. -/
abbrev Store := List (String × Contact)

/-- `Map.prototype.get` (first matching key; keys are unique in a JS
map). -/
def mapGet : Store → String → Option Contact
  | [], _ => none
  | p :: ps, k => if p.1 == k then some p.2 else mapGet ps k

/-- `Map.prototype.has`. -/
def mapHas : Store → String → Bool
  | [], _ => false
  | p :: ps, k => p.1 == k || mapHas ps k

/-- `Map.prototype.set`: update in place if the key is present,
append otherwise. -/
def mapSet : Store → String → Contact → Store
  | [], k, v => [(k, v)]
  | p :: ps, k, v => if p.1 == k then (p.1, v) :: ps else p :: mapSet ps k v

/-- `Map.prototype.delete` (the removal itself; the Boolean result is
`mapHas`). -/
def mapDelete : Store → String → Store
  | [], _ => []
  | p :: ps, k => if p.1 == k then ps else p :: mapDelete ps k

/-- `Array.from(map.values())`. -/
def mapValues (m : Store) : List Contact := m.map (·.2)

/-- Character-list test: does the second list start with the first? -/
def startsWithChars : List Char → List Char → Bool
  | [], _ => true
  | _ :: _, [] => false
  | a :: as, b :: bs => a == b && startsWithChars as bs

/-- Character-list test: does the needle occur contiguously in the
haystack? -/
def subMatch (needle : List Char) : List Char → Bool
  | [] => needle.isEmpty
  | c :: cs => startsWithChars needle (c :: cs) || subMatch needle cs

/-- `haystack.includes(needle)` on strings. -/
def strIncludes (hay sub : String) : Bool := subMatch sub.toList hay.toList

/-- `s.toLowerCase()` (ASCII case map, which covers all inputs the
stores compare), character by character. -/
def lowerStr (s : String) : String := ⟨s.toList.map Char.toLower⟩

/-- One base-36 digit, lowercase, as `Number.prototype.toString(36)`
produces. -/
def b36digit (n : Nat) : Char :=
  if n < 10 then Char.ofNat (48 + n) else Char.ofNat (87 + n)

/-- Base-36 digits of `n`, most significant first; fuel-structured so
that it evaluates by kernel reduction. -/
def natToB36Aux : Nat → Nat → List Char
  | 0, _ => []
  | fuel + 1, n =>
    if n < 36 then [b36digit n]
    else natToB36Aux fuel (n / 36) ++ [b36digit (n % 36)]

/-- `n.toString(36)`. -/
def natToB36 (n : Nat) : String := ⟨natToB36Aux (n + 1) n⟩

/-- `generateId`: `Date.now().toString(36) + Math.random().toString(36).substr(2)`,
with the clock reading `t` and the random suffix `rnd` passed in. -/
def generateId (t : Nat) (rnd : String) : String := natToB36 t ++ rnd

/-- Stable insertion of `a` before the first element `b` with
`le a b` (ties keep `a`, the earlier element, first). -/
def insertOrdered (le : α → α → Bool) (a : α) : List α → List α
  | [] => [a]
  | b :: bs => if le a b then a :: b :: bs else b :: insertOrdered le a bs

/-- Stable sort by a Boolean "comes-no-later-than" relation; for a
consistent comparator this is the unique result ECMAScript `sort`
must produce. -/
def stableSortBy (le : α → α → Bool) : List α → List α
  | [] => []
  | a :: as => insertOrdered le a (stableSortBy le as)

/-- The comparator value `a[sortBy]` as an order-carrying case split:
name fields are lowercased strings, `email` the raw string (only
`firstName`/`lastName` are special-cased in the source), timestamp
fields numbers. -/
def sortKeyLe (k : SortKey) (a b : Contact) : Bool :=
  match k with
  | .firstName => lowerStr a.firstName ≤ lowerStr b.firstName
  | .lastName => lowerStr a.lastName ≤ lowerStr b.lastName
  | .email => a.email ≤ b.email
  | .createdAt => a.createdAt ≤ b.createdAt
  | .updatedAt => a.updatedAt ≤ b.updatedAt

/-- The source comparator, literally: `-1`/`1`/`0` from `<` tests on
the (lowercased, for name keys) field values, with the signs flipped
when `sortOrder === 'desc'`. -/
def jsComparator (k : SortKey) (descending : Bool) (a b : Contact) : Int :=
  match k with
  | .firstName =>
    if lowerStr a.firstName < lowerStr b.firstName then (if descending then 1 else -1)
    else if lowerStr b.firstName < lowerStr a.firstName then (if descending then -1 else 1)
    else 0
  | .lastName =>
    if lowerStr a.lastName < lowerStr b.lastName then (if descending then 1 else -1)
    else if lowerStr b.lastName < lowerStr a.lastName then (if descending then -1 else 1)
    else 0
  | .email =>
    if a.email < b.email then (if descending then 1 else -1)
    else if b.email < a.email then (if descending then -1 else 1)
    else 0
  | .createdAt =>
    if a.createdAt < b.createdAt then (if descending then 1 else -1)
    else if b.createdAt < a.createdAt then (if descending then -1 else 1)
    else 0
  | .updatedAt =>
    if a.updatedAt < b.updatedAt then (if descending then 1 else -1)
    else if b.updatedAt < a.updatedAt then (if descending then -1 else 1)
    else 0

namespace ContactDatabase

/-- `createContact`: generate an id, set both timestamps to now,
favorite off, default `tags` to `[]`, insert, return the contact. -/
def createContact (d : ContactFormData) (t : Nat) (rnd : String) (m : Store) :
    Contact × Store :=
  let id := generateId t rnd
  let c : Contact :=
    { id := id
      firstName := d.firstName
      lastName := d.lastName
      email := d.email
      phone := d.phone
      company := d.company
      jobTitle := d.jobTitle
      address := d.address
      notes := d.notes
      avatar := d.avatar
      tags := d.tags.getD []
      createdAt := t
      updatedAt := t
      isFavorite := false }
  (c, mapSet m id c)

/-- `getContact`. -/
def getContact (m : Store) (id : String) : Option Contact := mapGet m id

/-- `getAllContacts`. -/
def getAllContacts (m : Store) : List Contact := mapValues m

/-- The spread-merge of `updateContact`: fields present in the partial
override, absent fields are retained; `updatedAt` becomes now; `tags`
falls back to the prior tags when absent (`contactData.tags ||
contact.tags`). -/
def mergePatch (c : Contact) (d : FormPatch) (now : Nat) : Contact :=
  { id := c.id
    firstName := d.firstName.getD c.firstName
    lastName := d.lastName.getD c.lastName
    email := d.email.getD c.email
    phone := d.phone.getD c.phone
    company := d.company.getD c.company
    jobTitle := d.jobTitle.getD c.jobTitle
    address := d.address.getD c.address
    notes := d.notes.getD c.notes
    avatar := d.avatar.getD c.avatar
    tags := d.tags.getD c.tags
    createdAt := c.createdAt
    updatedAt := now
    isFavorite := c.isFavorite }

/-- `updateContact`. -/
def updateContact (m : Store) (id : String) (d : FormPatch) (now : Nat) :
    Option Contact × Store :=
  match mapGet m id with
  | none => (none, m)
  | some c =>
    let c' := mergePatch c d now
    (some c', mapSet m id c')

/-- `deleteContact` (returned Boolean, new collection). -/
def deleteContact (m : Store) (id : String) : Bool × Store :=
  (mapHas m id, mapDelete m id)

/-- `toggleFavorite`. -/
def toggleFavorite (m : Store) (id : String) (now : Nat) :
    Option Contact × Store :=
  match mapGet m id with
  | none => (none, m)
  | some c =>
    let c' := { c with isFavorite := !c.isFavorite, updatedAt := now }
    (some c', mapSet m id c')

/-- The free-text predicate of `searchContacts`, with `term` already
lowercased (the code lowercases once, before filtering); the phone is
matched raw against the lowercased term, and `company` is guarded by
truthiness. -/
def codeTextMatch (term : String) (c : Contact) : Bool :=
  strIncludes (lowerStr c.firstName) term ||
  strIncludes (lowerStr c.lastName) term ||
  strIncludes (lowerStr c.email) term ||
  strIncludes c.phone term ||
  (match c.company with
   | none => false
   | some comp => comp != "" && strIncludes (lowerStr comp) term)

/-- `searchContacts`: the four stages exactly as written, including
the JS truthiness skips (`if (filters.search)` skips on the empty
string; `if (filters.tags && filters.tags.length > 0)` skips on the
empty list). -/
def searchContacts (f : ContactFilters) (m : Store) : List Contact :=
  let r0 := mapValues m
  let r1 :=
    match f.search with
    | none => r0
    | some s => if s == "" then r0 else r0.filter (codeTextMatch (lowerStr s))
  let r2 :=
    match f.tags with
    | none => r1
    | some ts =>
      if ts.isEmpty then r1
      else r1.filter (fun c => ts.any (fun tg => c.tags.contains tg))
  let r3 :=
    match f.isFavorite with
    | none => r2
    | some b => r2.filter (fun c => c.isFavorite == b)
  match f.sortBy with
  | none => r3
  | some k =>
    let descending := f.sortOrder == some SortOrder.desc
    stableSortBy (fun a b => jsComparator k descending a b ≤ 0) r3

/-- The per-tag counter object of `getStats`
(`byTag[tag] = (byTag[tag] || 0) + 1`): bump in place, append a new
key at the end. -/
def bumpTag : List (String × Nat) → String → List (String × Nat)
  | [], t => [(t, 1)]
  | p :: ps, t => if p.1 == t then (p.1, p.2 + 1) :: ps else p :: bumpTag ps t

/-- Lookup in the counter object, 0 when absent. -/
def tagGetD : List (String × Nat) → String → Nat
  | [], _ => 0
  | p :: ps, t => if p.1 == t then p.2 else tagGetD ps t

structure ContactStats where
  total : Nat
  favorites : Nat
  withEmail : Nat
  withPhone : Nat
  byTag : List (String × Nat)
deriving DecidableEq, Repr

/-- `getStats`: counts over the value list; `withEmail`/`withPhone`
test truthiness (non-empty string); `byTag` is filled tag occurrence
by tag occurrence. -/
def getStats (m : Store) : ContactStats :=
  let cs := mapValues m
  { total := cs.length
    favorites := (cs.filter (fun c => c.isFavorite)).length
    withEmail := (cs.filter (fun c => c.email != "")).length
    withPhone := (cs.filter (fun c => c.phone != "")).length
    byTag := cs.foldl (fun acc c => c.tags.foldl bumpTag acc) [] }

/-- `exportContacts`: the whole value list in `list()` order (the
pretty-printed JSON text is abstracted as the record list itself). -/
def exportContacts (m : Store) : List Contact := mapValues m

/-- `importContacts`: `none` stands for input that does not parse as
an array (the code throws its fixed format error); otherwise each
record with a truthy id (`contact.id`, so non-empty) that is not yet a
key is inserted verbatim and counted. -/
def importContacts (input : Option (List Contact)) (m : Store) :
    Except String (Nat × Store) :=
  match input with
  | none => Except.error "Invalid import data format"
  | some rs =>
    Except.ok (rs.foldl
      (fun acc r =>
        if r.id != "" && !(mapHas acc.2 r.id) then (acc.1 + 1, mapSet acc.2 r.id r)
        else acc)
      (0, m))

/-- `clearAll`. -/
def clearAll (_ : Store) : Store := []

end ContactDatabase

/-
The SQLite-flavored store of the repository. `ensureInitialized`
produces an empty `db.contacts` map (then reloads its own storage
slot, which from a fresh slot is empty), `createTables` and the
`console.log` calls have no data effect, so the data-level state is
again a `Store`; each method body below is transcribed from the
SQLite class.
-/
namespace SQLiteContactDatabase

/-- `SQLiteContactDatabase.createContact`. -/
def createContact (d : ContactFormData) (t : Nat) (rnd : String) (m : Store) :
    Contact × Store :=
  let id := generateId t rnd
  let c : Contact :=
    { id := id
      firstName := d.firstName
      lastName := d.lastName
      email := d.email
      phone := d.phone
      company := d.company
      jobTitle := d.jobTitle
      address := d.address
      notes := d.notes
      avatar := d.avatar
      tags := d.tags.getD []
      createdAt := t
      updatedAt := t
      isFavorite := false }
  (c, mapSet m id c)

/-- `SQLiteContactDatabase.getContact`. -/
def getContact (m : Store) (id : String) : Option Contact := mapGet m id

/-- `SQLiteContactDatabase.getAllContacts`. -/
def getAllContacts (m : Store) : List Contact := mapValues m

/-- `SQLiteContactDatabase.updateContact` (same spread merge). -/
def updateContact (m : Store) (id : String) (d : FormPatch) (now : Nat) :
    Option Contact × Store :=
  match mapGet m id with
  | none => (none, m)
  | some c =>
    let c' : Contact :=
      { id := c.id
        firstName := d.firstName.getD c.firstName
        lastName := d.lastName.getD c.lastName
        email := d.email.getD c.email
        phone := d.phone.getD c.phone
        company := d.company.getD c.company
        jobTitle := d.jobTitle.getD c.jobTitle
        address := d.address.getD c.address
        notes := d.notes.getD c.notes
        avatar := d.avatar.getD c.avatar
        tags := d.tags.getD c.tags
        createdAt := c.createdAt
        updatedAt := now
        isFavorite := c.isFavorite }
    (some c', mapSet m id c')

/-- `SQLiteContactDatabase.deleteContact`. -/
def deleteContact (m : Store) (id : String) : Bool × Store :=
  (mapHas m id, mapDelete m id)

/-- `SQLiteContactDatabase.toggleFavorite`. -/
def toggleFavorite (m : Store) (id : String) (now : Nat) :
    Option Contact × Store :=
  match mapGet m id with
  | none => (none, m)
  | some c =>
    let c' := { c with isFavorite := !c.isFavorite, updatedAt := now }
    (some c', mapSet m id c')

/-- `SQLiteContactDatabase.searchContacts` (same four stages). -/
def searchContacts (f : ContactFilters) (m : Store) : List Contact :=
  let r0 := mapValues m
  let r1 :=
    match f.search with
    | none => r0
    | some s =>
      if s == "" then r0
      else r0.filter (ContactDatabase.codeTextMatch (lowerStr s))
  let r2 :=
    match f.tags with
    | none => r1
    | some ts =>
      if ts.isEmpty then r1
      else r1.filter (fun c => ts.any (fun tg => c.tags.contains tg))
  let r3 :=
    match f.isFavorite with
    | none => r2
    | some b => r2.filter (fun c => c.isFavorite == b)
  match f.sortBy with
  | none => r3
  | some k =>
    let descending := f.sortOrder == some SortOrder.desc
    stableSortBy (fun a b => jsComparator k descending a b ≤ 0) r3

/-- `SQLiteContactDatabase.getStats`. -/
def getStats (m : Store) : ContactDatabase.ContactStats :=
  let cs := mapValues m
  { total := cs.length
    favorites := (cs.filter (fun c => c.isFavorite)).length
    withEmail := (cs.filter (fun c => c.email != "")).length
    withPhone := (cs.filter (fun c => c.phone != "")).length
    byTag := cs.foldl (fun acc c => c.tags.foldl ContactDatabase.bumpTag acc) [] }

/-- `SQLiteContactDatabase.exportContacts`. -/
def exportContacts (m : Store) : List Contact := mapValues m

/-- `SQLiteContactDatabase.importContacts`. -/
def importContacts (input : Option (List Contact)) (m : Store) :
    Except String (Nat × Store) :=
  match input with
  | none => Except.error "Invalid import data format"
  | some rs =>
    Except.ok (rs.foldl
      (fun acc r =>
        if r.id != "" && !(mapHas acc.2 r.id) then (acc.1 + 1, mapSet acc.2 r.id r)
        else acc)
      (0, m))

/-- `SQLiteContactDatabase.clearAll`. -/
def clearAll (_ : Store) : Store := []

end SQLiteContactDatabase

/-
Persistence model (`loadFromStorage` / `saveToStorage`).

The storage slot holds the serialized collection; we abstract the
serialized blob as the collection itself, so a slot is
`Option Store` (`none` = no value under the key). A read that throws
or does not parse is also the `none` input of `loadFromStorage`.
`localStorage.setItem` may throw; `saveToStorage` wraps it in
`try/catch` and only logs the error.
-/

/-- The persistence slot. -/
abbrev Slot := Option Store

/-- `localStorage.setItem(dbName, JSON.stringify(data))`: succeeds
with the new blob or throws. -/
def setItem (writeOk : Bool) (m : Store) : Except String Store :=
  if writeOk then Except.ok m else Except.error "storage write failed"

namespace ContactDatabase

/-- `saveToStorage`: the `try/catch` around `setItem` — on failure the
error is logged and swallowed, the slot keeps its old contents. -/
def saveToStorage (writeOk : Bool) (m : Store) (slot : Slot) : Slot :=
  match setItem writeOk m with
  | Except.ok d => some d
  | Except.error _ => slot

/-- `loadFromStorage`: an absent, unreadable or unparsable slot leaves
the collection empty (the `catch` only logs). -/
def loadFromStorage (stored : Slot) : Store := stored.getD []

/-- `createContact` together with its persistence step, as the caller
observes it: an `async` method whose promise can only reject if an
exception escapes — `saveToStorage` never lets one escape. -/
def createContactP (d : ContactFormData) (t : Nat) (rnd : String) (m : Store)
    (writeOk : Bool) (slot : Slot) : Except String (Contact × Store × Slot) :=
  let r := createContact d t rnd m
  Except.ok (r.1, r.2, saveToStorage writeOk r.2 slot)

end ContactDatabase

/-
Spec-shaped formalizations of claim C1 about `searchContacts`: one
definition per the claim's literal words, and one per the amended
wording, both as a single keep-predicate over `list()` followed by the
sort stage.
-/

/-- The claim's sort relation: ascending or descending on the sort
key, names compared case-insensitively. -/
def specSortLe (k : SortKey) (descending : Bool) (a b : Contact) : Bool :=
  if descending then sortKeyLe k b a else sortKeyLe k a b

/-- Claim C1 stage (a), literally: the search term is a
case-insensitive substring of `firstName`, `lastName`, `email` or
`company`, or a case-sensitive substring of the raw phone text. -/
def claimTextMatch (s : String) (c : Contact) : Bool :=
  strIncludes (lowerStr c.firstName) (lowerStr s) ||
  strIncludes (lowerStr c.lastName) (lowerStr s) ||
  strIncludes (lowerStr c.email) (lowerStr s) ||
  (match c.company with
   | none => false
   | some comp => strIncludes (lowerStr comp) (lowerStr s)) ||
  strIncludes c.phone s

/-- Claim C1's keep predicate, literally: each stage applies whenever
its filter is present, and is skipped only when absent. -/
def claimKeep (f : ContactFilters) (c : Contact) : Bool :=
  (match f.search with
   | none => true
   | some s => claimTextMatch s c) &&
  ((match f.tags with
    | none => true
    | some ts => ts.any (fun tg => c.tags.contains tg)) &&
   (match f.isFavorite with
    | none => true
    | some b => c.isFavorite == b))

/-- Claim C1, literally: filter stages (a)–(c) then the sort stage. -/
def searchContactsClaim (f : ContactFilters) (m : Store) : List Contact :=
  let kept := (mapValues m).filter (claimKeep f)
  match f.sortBy with
  | none => kept
  | some k => stableSortBy (specSortLe k (f.sortOrder == some SortOrder.desc)) kept

/-- Amended stage (a): the term is lowercased once; it must be a
substring of the lowercased `firstName`, `lastName`, `email` or
(non-empty) `company`, or of the raw phone text (so an upper-case
term can never match a phone). -/
def amendedTextMatch (s : String) (c : Contact) : Bool :=
  strIncludes (lowerStr c.firstName) (lowerStr s) ||
  strIncludes (lowerStr c.lastName) (lowerStr s) ||
  strIncludes (lowerStr c.email) (lowerStr s) ||
  (match c.company with
   | none => false
   | some comp => comp != "" && strIncludes (lowerStr comp) (lowerStr s)) ||
  strIncludes c.phone (lowerStr s)

/-- Amended keep predicate: the free-text stage is skipped when the
term is absent or empty, the tag stage when the tag list is absent or
empty, the favorite stage when absent. -/
def amendedKeep (f : ContactFilters) (c : Contact) : Bool :=
  (match f.search with
   | none => true
   | some s => s == "" || amendedTextMatch s c) &&
  ((match f.tags with
    | none => true
    | some ts => ts.isEmpty || ts.any (fun tg => c.tags.contains tg)) &&
   (match f.isFavorite with
    | none => true
    | some b => c.isFavorite == b))

/-- Claim C1 as amended: the same pipeline with the amended stage
conditions. -/
def searchContactsAmended (f : ContactFilters) (m : Store) : List Contact :=
  let kept := (mapValues m).filter (amendedKeep f)
  match f.sortBy with
  | none => kept
  | some k => stableSortBy (specSortLe k (f.sortOrder == some SortOrder.desc)) kept

/-
Helper lemmas shared by the claim theorems.
-/

/-- The JS three-way comparator test `cmp(a,b) <= 0` agrees with the
(possibly flipped) `≤` of the underlying linear order. -/
theorem cmpBridge {α : Type} [LinearOrder α] (d : Bool) (x y : α)
    {i1 : Decidable (x < y)} {i2 : Decidable (y < x)}
    {i3 : Decidable (y ≤ x)} {i4 : Decidable (x ≤ y)} :
    (decide ((@ite _ (x < y) i1 (if d then (1 : Int) else -1)
      (@ite _ (y < x) i2 (if d then -1 else 1) 0)) ≤ 0)) =
    (if d then (@decide (y ≤ x) i3) else (@decide (x ≤ y) i4)) := by
  rcases lt_trichotomy x y with h | h | h
  · cases d <;> simp [h, h.le, h.not_le, h.not_lt]
  · cases d <;> simp [h, lt_irrefl]
  · cases d <;> simp [h, h.le, h.not_le, h.not_lt]

/-- The source comparator sorts exactly like the claim's key order. -/
theorem sortLe_eq (k : SortKey) (d : Bool) :
    (fun a b : Contact => (decide (jsComparator k d a b ≤ 0))) = specSortLe k d := by
  funext a b
  cases k <;> simp only [jsComparator, specSortLe, sortKeyLe] <;> exact cmpBridge d _ _

/-- The amended free-text predicate equals the source predicate at the
lowercased term. -/
theorem amendedTextMatch_eq (s : String) (c : Contact) :
    amendedTextMatch s c = ContactDatabase.codeTextMatch (lowerStr s) c := by
  unfold amendedTextMatch ContactDatabase.codeTextMatch
  rcases c.company with _ | comp <;>
    simp [Bool.or_comm, Bool.or_left_comm, Bool.or_assoc]

/-- Free-text stage of `searchContacts` as one filter. -/
theorem stage1_eq (os : Option String) (l : List Contact) :
    (match os with
     | none => l
     | some s => if s == "" then l
                 else l.filter (ContactDatabase.codeTextMatch (lowerStr s))) =
    l.filter (fun c =>
      match os with
      | none => true
      | some s => s == "" || amendedTextMatch s c) := by
  cases os with
  | none => simp
  | some s =>
    cases hs : s == "" with
    | true => simp [hs]
    | false =>
      simp only [hs, Bool.false_or, if_neg (by simp [hs] : ¬ (s == "") = true)]
      exact List.filter_congr (fun c _ => (amendedTextMatch_eq s c).symm)

/-- Tag stage of `searchContacts` as one filter. -/
theorem stage2_eq (ot : Option (List String)) (l : List Contact) :
    (match ot with
     | none => l
     | some ts => if ts.isEmpty then l
                  else l.filter (fun c => ts.any (fun tg => c.tags.contains tg))) =
    l.filter (fun c =>
      match ot with
      | none => true
      | some ts => ts.isEmpty || ts.any (fun tg => c.tags.contains tg)) := by
  cases ot with
  | none => simp
  | some ts =>
    cases hs : ts.isEmpty with
    | true => simp [hs]
    | false => simp [hs]

/-- Favorite stage of `searchContacts` as one filter. -/
theorem stage3_eq (ob : Option Bool) (l : List Contact) :
    (match ob with
     | none => l
     | some b => l.filter (fun c => c.isFavorite == b)) =
    l.filter (fun c =>
      match ob with
      | none => true
      | some b => c.isFavorite == b) := by
  cases ob with
  | none => simp
  | some b => rfl

/-- The search pipeline agrees with the amended single-pass
formalization, for every filter object and store. -/
theorem search_eq_amended (f : ContactFilters) (m : Store) :
    ContactDatabase.searchContacts f m = searchContactsAmended f m := by
  rcases f with ⟨os, ot, ob, ok, oo⟩
  cases ok with
  | none =>
    simp only [ContactDatabase.searchContacts, searchContactsAmended]
    rw [stage1_eq, stage2_eq, stage3_eq, List.filter_filter, List.filter_filter]
    exact List.filter_congr (fun c _ => by
      unfold amendedKeep
      cases os <;> cases ot <;> cases ob <;>
        simp [Bool.and_comm, Bool.and_left_comm, Bool.and_assoc])
  | some k =>
    simp only [ContactDatabase.searchContacts, searchContactsAmended]
    rw [stage1_eq, stage2_eq, stage3_eq, List.filter_filter, List.filter_filter,
      sortLe_eq]
    exact congrArg _ (List.filter_congr (fun c _ => by
      unfold amendedKeep
      cases os <;> cases ot <;> cases ob <;>
        simp [Bool.and_comm, Bool.and_left_comm, Bool.and_assoc]))

/-
Claim C1.
-/

/-- The contact and filter object exhibiting the phone-case
divergence: the claim's case-sensitive phone match keeps the contact,
the code's lowercased term does not. -/
def phoneCaseContact : Contact :=
  { id := "1", firstName := "Aa", lastName := "Bb", email := "e@x.y"
    phone := "555-CALL", company := none, jobTitle := none, address := none
    notes := none, avatar := none, tags := [], createdAt := 0, updatedAt := 0
    isFavorite := false }

def phoneCaseFilters : ContactFilters :=
  { search := some "CALL", tags := none, isFavorite := none
    sortBy := none, sortOrder := none }

/-- C1 (counterexample): with the single contact whose raw phone is
"555-CALL" and the search term "CALL", stage (a) as the claim states
it (case-sensitive substring of the raw phone) keeps the contact, but
`searchContacts` lowercases the term once and matches "call" against
the raw phone, so the code returns the empty list. The claim's
pipeline, formalized literally as `searchContactsClaim`, disagrees
with the code here. -/
theorem C1_searchContacts_counterexample :
    ContactDatabase.searchContacts phoneCaseFilters [("1", phoneCaseContact)] = [] ∧
    searchContactsClaim phoneCaseFilters [("1", phoneCaseContact)] = [phoneCaseContact] := by
  constructor <;> decide

/-- C1 (amended): `searchContacts` applies, in order, the free-text
stage (skipped when the term is absent or empty; the term is
lowercased once and compared against the lowercased `firstName`,
`lastName`, `email`, non-empty `company`, and against the raw phone
text), the tag stage (skipped when the requested list is absent or
empty; keeps contacts sharing at least one tag), the favorite stage
(when specified), and, when a sort key is given, a stable
ascending/descending sort on that key with `firstName`/`lastName`
compared case-insensitively; with all filters absent the result is
exactly `list()`'s contents. -/
theorem C1_searchContacts_pipeline (f : ContactFilters) (m : Store) :
    ContactDatabase.searchContacts f m = searchContactsAmended f m ∧
    ContactDatabase.searchContacts ContactFilters.empty m =
      ContactDatabase.getAllContacts m := by
  refine ⟨search_eq_amended f m, ?_⟩
  rfl

/-
Association-list lemmas for the import/export arguments.
-/

theorem mapHas_append (m₁ m₂ : Store) (k : String) :
    mapHas (m₁ ++ m₂) k = (mapHas m₁ k || mapHas m₂ k) := by
  induction m₁ with
  | nil => simp [mapHas]
  | cons p ps ih => simp [mapHas, ih, Bool.or_assoc]

theorem mapSet_notHas (m : Store) (k : String) (v : Contact)
    (h : mapHas m k = false) : mapSet m k v = m ++ [(k, v)] := by
  induction m with
  | nil => rfl
  | cons p ps ih =>
    simp only [mapHas, Bool.or_eq_false_iff] at h
    simp [mapSet, h.1, ih h.2]

theorem mapHas_single (k k' : String) (v : Contact) :
    mapHas [(k, v)] k' = (k == k') := by
  simp [mapHas]

/-- What the import loop does to a batch whose records carry
non-empty, pairwise-distinct ids: every record whose id is not yet in
the collection is appended, in order, and counted. -/
theorem importFold_spec (rs : List Contact) (m : Store) (n₀ : Nat)
    (hid : ∀ r ∈ rs, r.id ≠ "")
    (hnodup : (rs.map (fun r => r.id)).Nodup) :
    rs.foldl
      (fun acc r =>
        if r.id != "" && !(mapHas acc.2 r.id) then (acc.1 + 1, mapSet acc.2 r.id r)
        else acc)
      (n₀, m) =
    (n₀ + (rs.filter (fun r => !(mapHas m r.id))).length,
      m ++ (rs.filter (fun r => !(mapHas m r.id))).map (fun r => (r.id, r))) := by
  induction rs generalizing m n₀ with
  | nil => simp
  | cons r rest ih =>
    have hr : r.id ≠ "" := hid r (List.mem_cons_self r rest)
    have hrb : (r.id != "") = true := by simpa using hr
    simp only [List.map_cons, List.nodup_cons, List.mem_map] at hnodup
    have hrest_id : ∀ x ∈ rest, r.id ≠ x.id := by
      intro x hx hEq
      exact hnodup.1 ⟨x, hx, hEq.symm⟩
    cases hhas : mapHas m r.id with
    | true =>
      simp only [List.foldl_cons, hrb, hhas, Bool.not_true, Bool.and_false,
        Bool.true_and, if_neg (by simp : ¬(false = true))]
      rw [ih m n₀ (fun x hx => hid x (List.mem_cons_of_mem r hx)) hnodup.2]
      simp [List.filter_cons, hhas]
    | false =>
      simp only [List.foldl_cons, hrb, hhas, Bool.not_false, Bool.and_true,
        Bool.true_and, if_pos rfl]
      rw [if_pos trivial, mapSet_notHas m r.id r hhas,
        ih (m ++ [(r.id, r)]) (n₀ + 1)
          (fun x hx => hid x (List.mem_cons_of_mem r hx)) hnodup.2]
      have hfil : rest.filter (fun x => !(mapHas (m ++ [(r.id, r)]) x.id)) =
          rest.filter (fun x => !(mapHas m x.id)) := by
        apply List.filter_congr
        intro x hx
        have : (r.id == x.id) = false := by
          simpa using hrest_id x hx
        simp [mapHas_append, mapHas_single, this]
      rw [hfil]
      simp [List.filter_cons, hhas, Nat.add_comm, Nat.add_assoc, Nat.add_left_comm]

/-
Claim C2.
-/

deriving instance DecidableEq for Except

/-- Two import records sharing the id "x". -/
def dupImportA : Contact :=
  { id := "x", firstName := "A", lastName := "A", email := "", phone := ""
    company := none, jobTitle := none, address := none, notes := none
    avatar := none, tags := [], createdAt := 0, updatedAt := 0, isFavorite := false }

def dupImportB : Contact :=
  { dupImportA with firstName := "B", lastName := "B" }

/-- C2 (counterexample): importing two records that share one fresh id
into the empty collection. The claim's count `N - M` is `2 - 0 = 2`
(no id is "already present in the collection"), but the code checks
presence against the evolving collection, inserts only the first
record, and returns 1. -/
theorem C2_importContacts_counterexample :
    ContactDatabase.importContacts (some [dupImportA, dupImportB]) [] =
      Except.ok (1, [("x", dupImportA)]) ∧ (1 : Nat) ≠ 2 - 0 := by
  constructor
  · decide
  · decide

/-- C2 (amended): a record is inserted verbatim and counted exactly
when its id is non-empty and not present at the moment it is
processed — so ids already in the collection and ids introduced by
earlier records of the same batch are both skipped. For a batch of
records with non-empty pairwise-distinct ids, the count is the number
of records whose id was not already present, the new records are
appended in order, and the collection grows by exactly that count;
the operation fails exactly when the input does not parse as an
array. -/
theorem C2_importContacts_amended (rs : List Contact) (m : Store)
    (hid : ∀ r ∈ rs, r.id ≠ "")
    (hnodup : (rs.map (fun r => r.id)).Nodup) :
    ContactDatabase.importContacts (some rs) m =
      Except.ok ((rs.filter (fun r => !(mapHas m r.id))).length,
        m ++ (rs.filter (fun r => !(mapHas m r.id))).map (fun r => (r.id, r))) ∧
    (m ++ (rs.filter (fun r => !(mapHas m r.id))).map (fun r => (r.id, r))).length =
      m.length + (rs.filter (fun r => !(mapHas m r.id))).length ∧
    ContactDatabase.importContacts none m = Except.error "Invalid import data format" := by
  refine ⟨?_, ?_, rfl⟩
  · simp only [ContactDatabase.importContacts]
    rw [importFold_spec rs m 0 hid hnodup]
    simp
  · simp

/-- C2 (witness). -/
theorem C2_importContacts_amended_witness :
    ContactDatabase.importContacts (some [dupImportA]) [] =
      Except.ok ((([dupImportA] : List Contact).filter
          (fun r => !(mapHas [] r.id))).length,
        [] ++ (([dupImportA] : List Contact).filter
          (fun r => !(mapHas [] r.id))).map (fun r => (r.id, r))) := by
  exact (C2_importContacts_amended [dupImportA] []
    (by decide) (by decide)).1

/-
Claim C3.
-/

/-- A contact whose `updatedAt` is 5, updated at clock reading 5. -/
def staleClockContact : Contact :=
  { id := "i", firstName := "F", lastName := "L", email := "", phone := ""
    company := none, jobTitle := none, address := none, notes := none
    avatar := none, tags := ["t"], createdAt := 5, updatedAt := 5, isFavorite := false }

/-- C3 (counterexample): `updateContact` sets `updatedAt` to the
current clock reading; when the clock still reads the stored
`updatedAt` (same millisecond), the empty-partial update returns the
contact unchanged — `updatedAt` does not strictly increase. -/
theorem C3_updateContact_counterexample :
    (ContactDatabase.updateContact [("i", staleClockContact)] "i"
      FormPatch.empty 5).1 = some staleClockContact ∧
    ¬ staleClockContact.updatedAt < staleClockContact.updatedAt := by
  constructor
  · decide
  · decide

/-- C3 (amended): for an id present in the collection, the
empty-partial update returns and stores the prior contact with every
field unchanged except `updatedAt`, which becomes the operation's
clock reading — so it strictly increases exactly when the clock has
advanced past the prior `updatedAt`; and any partial whose `tags`
field is absent preserves the prior tags sequence exactly. -/
theorem C3_updateContact_frame (m : Store) (id : String) (now : Nat) (c : Contact)
    (h : mapGet m id = some c) :
    ContactDatabase.updateContact m id FormPatch.empty now =
      (some { c with updatedAt := now }, mapSet m id { c with updatedAt := now }) ∧
    (c.updatedAt < now →
      c.updatedAt < ({ c with updatedAt := now } : Contact).updatedAt) ∧
    (∀ d : FormPatch, d.tags = none →
      (ContactDatabase.updateContact m id d now).1.map (fun x => x.tags) =
        some c.tags) := by
  refine ⟨?_, fun hlt => hlt, ?_⟩
  · simp only [ContactDatabase.updateContact, h]
    exact rfl
  · intro d hd
    simp only [ContactDatabase.updateContact, h]
    simp [ContactDatabase.mergePatch, hd]

/-- C3 (witness). -/
theorem C3_updateContact_frame_witness :
    ContactDatabase.updateContact [("i", staleClockContact)] "i"
      FormPatch.empty 9 =
      (some { staleClockContact with updatedAt := 9 },
        mapSet [("i", staleClockContact)] "i"
          { staleClockContact with updatedAt := 9 }) := by
  exact (C3_updateContact_frame [("i", staleClockContact)] "i" 9
    staleClockContact (by decide)).1

/-
Claim C4.
-/

/-- C4: `createContact` returns exactly the contact it inserts: the
returned contact's id is the generated id, both timestamps are the
creation time, the favorite flag is off, `tags` defaults to the empty
sequence, every other field is taken verbatim from the input, and the
new collection is the old one with that contact set under its id. -/
theorem C4_createContact_contract (d : ContactFormData) (t : Nat) (rnd : String)
    (m : Store) :
    (ContactDatabase.createContact d t rnd m).2 =
      mapSet m (ContactDatabase.createContact d t rnd m).1.id
        (ContactDatabase.createContact d t rnd m).1 ∧
    (ContactDatabase.createContact d t rnd m).1.id = generateId t rnd ∧
    (ContactDatabase.createContact d t rnd m).1.createdAt = t ∧
    (ContactDatabase.createContact d t rnd m).1.updatedAt = t ∧
    (ContactDatabase.createContact d t rnd m).1.isFavorite = false ∧
    (ContactDatabase.createContact d t rnd m).1.tags = d.tags.getD [] ∧
    (ContactDatabase.createContact d t rnd m).1.firstName = d.firstName ∧
    (ContactDatabase.createContact d t rnd m).1.lastName = d.lastName ∧
    (ContactDatabase.createContact d t rnd m).1.email = d.email ∧
    (ContactDatabase.createContact d t rnd m).1.phone = d.phone ∧
    (ContactDatabase.createContact d t rnd m).1.company = d.company ∧
    (ContactDatabase.createContact d t rnd m).1.jobTitle = d.jobTitle ∧
    (ContactDatabase.createContact d t rnd m).1.address = d.address ∧
    (ContactDatabase.createContact d t rnd m).1.notes = d.notes ∧
    (ContactDatabase.createContact d t rnd m).1.avatar = d.avatar :=
  ⟨rfl, rfl, rfl, rfl, rfl, rfl, rfl, rfl, rfl, rfl, rfl, rfl, rfl, rfl, rfl⟩

/-
Claim C5.
-/

/-- Well-formedness of a reachable collection: every entry's key is
its contact's (non-empty) id, and keys are pairwise distinct. -/
def WFStore (m : Store) : Prop :=
  (∀ p ∈ m, p.1 = p.2.id ∧ p.2.id ≠ "") ∧ (m.map (fun p => p.1)).Nodup

instance (m : Store) : Decidable (WFStore m) := by
  unfold WFStore
  infer_instance

/-- C5: exporting, clearing, then importing the exported text restores
the collection exactly (hence as a set of records), and the export is
the whole collection in `list()` order. -/
theorem C5_export_import_roundtrip (m : Store) (h : WFStore m) :
    ContactDatabase.importContacts (some (ContactDatabase.exportContacts m))
      (ContactDatabase.clearAll m) = Except.ok (m.length, m) ∧
    ContactDatabase.exportContacts m = ContactDatabase.getAllContacts m := by
  refine ⟨?_, rfl⟩
  have hid : ∀ r ∈ ContactDatabase.exportContacts m, r.id ≠ "" := by
    intro r hr
    rcases List.mem_map.1 hr with ⟨p, hp, hpr⟩
    exact hpr ▸ (h.1 p hp).2
  have hkeys : (ContactDatabase.exportContacts m).map (fun r => r.id) =
      m.map (fun p => p.1) := by
    unfold ContactDatabase.exportContacts mapValues
    rw [List.map_map]
    exact List.map_congr_left (fun p hp => ((h.1 p hp).1).symm)
  have hnodup : ((ContactDatabase.exportContacts m).map (fun r => r.id)).Nodup := by
    rw [hkeys]; exact h.2
  simp only [ContactDatabase.importContacts, ContactDatabase.clearAll]
  rw [importFold_spec _ [] 0 hid hnodup]
  have hfil : (ContactDatabase.exportContacts m).filter
      (fun r => !(mapHas [] r.id)) = ContactDatabase.exportContacts m := by
    simp [mapHas]
  rw [hfil]
  have hback : (ContactDatabase.exportContacts m).map (fun r => (r.id, r)) = m := by
    unfold ContactDatabase.exportContacts mapValues
    rw [List.map_map]
    have : ∀ p ∈ m, ((fun r => (r.id, r)) ∘ fun p : String × Contact => p.2) p = id p := by
      intro p hp
      simp [Function.comp, (h.1 p hp).1.symm]
    rw [List.map_congr_left this, List.map_id]
  rw [hback]
  simp [ContactDatabase.exportContacts, mapValues]

/-- C5 (witness). -/
theorem C5_export_import_roundtrip_witness :
    ContactDatabase.importContacts
      (some (ContactDatabase.exportContacts [("x", dupImportA), ("i", staleClockContact)]))
      (ContactDatabase.clearAll [("x", dupImportA), ("i", staleClockContact)]) =
      Except.ok (2, [("x", dupImportA), ("i", staleClockContact)]) := by
  exact (C5_export_import_roundtrip [("x", dupImportA), ("i", staleClockContact)]
    (by decide)).1

/-
Reachable states and the store invariant (claims C6, C7).
-/

/-- States reachable by any sequence of store operations from the
empty collection. -/
inductive Reach : Store → Prop where
  | empty : Reach []
  | create (d : ContactFormData) (t : Nat) (rnd : String) (m : Store) :
      Reach m → Reach (ContactDatabase.createContact d t rnd m).2
  | update (id : String) (d : FormPatch) (now : Nat) (m : Store) :
      Reach m → Reach (ContactDatabase.updateContact m id d now).2
  | toggle (id : String) (now : Nat) (m : Store) :
      Reach m → Reach (ContactDatabase.toggleFavorite m id now).2
  | delete (id : String) (m : Store) :
      Reach m → Reach (ContactDatabase.deleteContact m id).2
  | importB (input : Option (List Contact)) (n : Nat) (m m' : Store) :
      Reach m → ContactDatabase.importContacts input m = Except.ok (n, m') →
      Reach m'
  | clear (m : Store) : Reach m → Reach (ContactDatabase.clearAll m)

/-- The invariant behind id uniqueness: each entry's key is its
contact's id, and keys are pairwise distinct. -/
def StoreInv (m : Store) : Prop :=
  (∀ p ∈ m, p.1 = p.2.id) ∧ (m.map (fun p => p.1)).Nodup

theorem mapHas_false_iff (m : Store) (k : String) :
    mapHas m k = false ↔ k ∉ m.map (fun p => p.1) := by
  induction m with
  | nil => simp [mapHas]
  | cons p ps ih =>
    simp only [mapHas, Bool.or_eq_false_iff, List.map_cons, List.mem_cons, not_or, ih,
      beq_eq_false_iff_ne, ne_eq]
    constructor
    · rintro ⟨h1, h2⟩
      exact ⟨fun he => h1 he.symm, h2⟩
    · rintro ⟨h1, h2⟩
      exact ⟨fun he => h1 he.symm, h2⟩

theorem keys_mapSet_has (m : Store) (k : String) (v : Contact)
    (h : mapHas m k = true) :
    (mapSet m k v).map (fun p => p.1) = m.map (fun p => p.1) := by
  induction m with
  | nil => simp [mapHas] at h
  | cons p ps ih =>
    cases hpk : p.1 == k with
    | true => simp [mapSet, hpk]
    | false =>
      simp only [mapHas, hpk, Bool.false_or] at h
      simp [mapSet, hpk, ih h]

theorem mem_mapSet (m : Store) (k : String) (v : Contact) :
    ∀ p' ∈ mapSet m k v, p' ∈ m ∨ p' = (k, v) := by
  induction m with
  | nil => simp [mapSet]
  | cons p ps ih =>
    intro p' hp'
    cases hpk : p.1 == k with
    | true =>
      simp only [mapSet, hpk, if_pos rfl] at hp'
      rcases List.mem_cons.1 hp' with h | h
      · right
        rw [h]
        have : p.1 = k := by simpa using hpk
        rw [this]
      · left
        exact List.mem_cons_of_mem p h
    | false =>
      simp only [mapSet, hpk] at hp'
      rcases List.mem_cons.1 (by simpa using hp') with h | h
      · exact Or.inl (h ▸ List.mem_cons_self p ps)
      · rcases ih p' h with h' | h'
        · exact Or.inl (List.mem_cons_of_mem p h')
        · exact Or.inr h'

theorem inv_mapSet (m : Store) (k : String) (v : Contact)
    (hkv : k = v.id) (h : StoreInv m) : StoreInv (mapSet m k v) := by
  constructor
  · intro p' hp'
    rcases mem_mapSet m k v p' hp' with h' | h'
    · exact h.1 p' h'
    · rw [h']; exact hkv
  · cases hhas : mapHas m k with
    | true => rw [keys_mapSet_has m k v hhas]; exact h.2
    | false =>
      rw [mapSet_notHas m k v hhas]
      have hk : k ∉ m.map (fun p => p.1) := (mapHas_false_iff m k).1 hhas
      simp [List.nodup_append, h.2, hk]

theorem mem_mapDelete (m : Store) (k : String) :
    ∀ p ∈ mapDelete m k, p ∈ m := by
  induction m with
  | nil => simp [mapDelete]
  | cons p ps ih =>
    intro p' hp'
    cases hpk : p.1 == k with
    | true =>
      simp only [mapDelete, hpk, if_pos rfl] at hp'
      exact List.mem_cons_of_mem p hp'
    | false =>
      simp only [mapDelete, hpk] at hp'
      rcases List.mem_cons.1 (by simpa using hp') with h | h
      · exact h ▸ List.mem_cons_self p ps
      · exact List.mem_cons_of_mem p (ih p' h)

theorem keys_mapDelete_sublist (m : Store) (k : String) :
    ((mapDelete m k).map (fun p => p.1)).Sublist (m.map (fun p => p.1)) := by
  induction m with
  | nil => simp [mapDelete]
  | cons p ps ih =>
    cases hpk : p.1 == k with
    | true =>
      simp only [mapDelete, hpk, if_pos rfl, List.map_cons]
      exact (List.sublist_cons_self _ _)
    | false =>
      simp only [mapDelete, hpk, List.map_cons]
      rw [if_neg (by decide : ¬ (false = true))]
      simp only [List.map_cons]
      exact List.Sublist.cons₂ p.1 ih

theorem inv_mapDelete (m : Store) (k : String) (h : StoreInv m) :
    StoreInv (mapDelete m k) :=
  ⟨fun p hp => h.1 p (mem_mapDelete m k p hp),
   List.Nodup.sublist (keys_mapDelete_sublist m k) h.2⟩

theorem mapGet_some_key (m : Store) (k : String) (c : Contact)
    (hinv : ∀ p ∈ m, p.1 = p.2.id) (h : mapGet m k = some c) : c.id = k := by
  induction m with
  | nil => simp [mapGet] at h
  | cons p ps ih =>
    cases hpk : p.1 == k with
    | true =>
      simp only [mapGet, hpk] at h
      rw [if_pos trivial] at h
      have h1 : p.1 = k := by simpa using hpk
      have h2 : p.1 = p.2.id := hinv p (List.mem_cons_self p ps)
      have hc : p.2 = c := by simpa using h
      rw [← hc, ← h2, h1]
    | false =>
      simp only [mapGet, hpk] at h
      have : mapGet ps k = some c := by simpa using h
      exact ih (fun p' hp' => hinv p' (List.mem_cons_of_mem p hp')) this

theorem importFold_inv (rs : List Contact) :
    ∀ (n₀ : Nat) (m : Store), StoreInv m →
    StoreInv ((rs.foldl
      (fun acc r =>
        if r.id != "" && !(mapHas acc.2 r.id) then (acc.1 + 1, mapSet acc.2 r.id r)
        else acc)
      (n₀, m)).2) := by
  induction rs with
  | nil => intro n₀ m h; simpa using h
  | cons r rest ih =>
    intro n₀ m h
    simp only [List.foldl_cons]
    cases hc : r.id != "" && !(mapHas m r.id) with
    | true =>
      rw [if_pos rfl]
      exact ih (n₀ + 1) (mapSet m r.id r) (inv_mapSet m r.id r rfl h)
    | false =>
      rw [if_neg (by decide : ¬ (false = true))]
      exact ih n₀ m h

/-- Every reachable collection satisfies the store invariant. -/
theorem reach_inv {m : Store} (h : Reach m) : StoreInv m := by
  induction h with
  | empty => exact ⟨by simp, by simp⟩
  | create d t rnd m _ ih => exact inv_mapSet m (generateId t rnd) _ rfl ih
  | update id d now m _ ih =>
    cases hg : mapGet m id with
    | none => simpa [ContactDatabase.updateContact, hg] using ih
    | some c =>
      have hc : c.id = id := mapGet_some_key m id c ih.1 hg
      simp only [ContactDatabase.updateContact, hg]
      exact inv_mapSet m id _ (by simp [ContactDatabase.mergePatch, hc]) ih
  | toggle id now m _ ih =>
    cases hg : mapGet m id with
    | none => simpa [ContactDatabase.toggleFavorite, hg] using ih
    | some c =>
      have hc : c.id = id := mapGet_some_key m id c ih.1 hg
      simp only [ContactDatabase.toggleFavorite, hg]
      exact inv_mapSet m id _ (by simp [hc]) ih
  | delete id m _ ih => exact inv_mapDelete m id ih
  | importB input n m m' _ heq ih =>
    cases input with
    | none => simp [ContactDatabase.importContacts] at heq
    | some rs =>
      simp only [ContactDatabase.importContacts, Except.ok.injEq] at heq
      have : m' = (rs.foldl
          (fun acc r =>
            if r.id != "" && !(mapHas acc.2 r.id) then
              (acc.1 + 1, mapSet acc.2 r.id r)
            else acc)
          (0, m)).2 := by
        rw [heq]
      rw [this]
      exact importFold_inv rs 0 m ih
  | clear m _ _ =>
    exact ⟨by simp [ContactDatabase.clearAll], by simp [ContactDatabase.clearAll]⟩

/-
Claim C6.
-/

/-- Two creation payloads that differ only in the name. -/
def formA : ContactFormData :=
  { firstName := "A", lastName := "A", email := "", phone := ""
    company := none, jobTitle := none, address := none, notes := none
    avatar := none, tags := none }

def formB : ContactFormData := { formA with firstName := "B" }

/-- C6 (counterexample): `generateId` carries no collision check.
Two creations at the same millisecond with the same random suffix
produce the same id; the second `createContact` silently overwrites
the first record, reassigning the id to a different record, and the
returned id is not unique among previously created ids. -/
theorem C6_uniqueIds_counterexample :
    (ContactDatabase.createContact formB 0 "r"
        (ContactDatabase.createContact formA 0 "r" []).2).1.id =
      (ContactDatabase.createContact formA 0 "r" []).1.id ∧
    mapGet (ContactDatabase.createContact formB 0 "r"
        (ContactDatabase.createContact formA 0 "r" []).2).2
        (ContactDatabase.createContact formA 0 "r" []).1.id =
      some (ContactDatabase.createContact formB 0 "r"
        (ContactDatabase.createContact formA 0 "r" []).2).1 ∧
    (ContactDatabase.createContact formB 0 "r"
        (ContactDatabase.createContact formA 0 "r" []).2).1 ≠
      (ContactDatabase.createContact formA 0 "r" []).1 := by
  refine ⟨?_, ?_, ?_⟩ <;> decide

/-- C6 (amended): in every state reachable by any sequence of store
operations, the contacts' ids are pairwise distinct (the collection
is keyed by id). However, `createContact` does not detect collisions
of the generated id: when the generated id equals an existing id the
existing record is silently overwritten, so the returned id is unique
among previously created ids only when the id generator does not
repeat an output. -/
theorem C6_uniqueIds_invariant (m : Store) (h : Reach m) :
    ((ContactDatabase.getAllContacts m).map (fun c => c.id)).Nodup := by
  have inv := reach_inv h
  have hkeys : (ContactDatabase.getAllContacts m).map (fun c => c.id) =
      m.map (fun p => p.1) := by
    unfold ContactDatabase.getAllContacts mapValues
    rw [List.map_map]
    exact List.map_congr_left (fun p hp => (inv.1 p hp).symm)
  rw [hkeys]
  exact inv.2

/-- C6 (witness). -/
theorem C6_uniqueIds_invariant_witness :
    ((ContactDatabase.getAllContacts
        (ContactDatabase.createContact formA 0 "r" []).2).map
      (fun c => c.id)).Nodup :=
  C6_uniqueIds_invariant _ (Reach.create formA 0 "r" [] Reach.empty)

/-
Claim C7.
-/

/-- Time-indexed reachability: states reachable from empty under a
monotone clock (each operation's clock reading is at least the
previous operation's), with `importContacts` excluded. The index is
an upper bound for every timestamp in the state. -/
inductive ReachT : Store → Nat → Prop where
  | empty : ReachT [] 0
  | create (d : ContactFormData) (rnd : String) (m : Store) (T t : Nat) :
      ReachT m T → T ≤ t → ReachT (ContactDatabase.createContact d t rnd m).2 t
  | update (id : String) (d : FormPatch) (m : Store) (T t : Nat) :
      ReachT m T → T ≤ t → ReachT (ContactDatabase.updateContact m id d t).2 t
  | toggle (id : String) (m : Store) (T t : Nat) :
      ReachT m T → T ≤ t → ReachT (ContactDatabase.toggleFavorite m id t).2 t
  | delete (id : String) (m : Store) (T : Nat) :
      ReachT m T → ReachT (ContactDatabase.deleteContact m id).2 T
  | clear (m : Store) (T : Nat) :
      ReachT m T → ReachT (ContactDatabase.clearAll m) T

/-- The timestamp invariant carried through `ReachT`. -/
def TimeInv (m : Store) (T : Nat) : Prop :=
  ∀ c ∈ mapValues m, c.createdAt ≤ c.updatedAt ∧ c.updatedAt ≤ T

theorem mem_values_mapSet (m : Store) (k : String) (v : Contact) :
    ∀ c ∈ mapValues (mapSet m k v), c = v ∨ c ∈ mapValues m := by
  intro c hc
  rcases List.mem_map.1 hc with ⟨p, hp, hpc⟩
  rcases mem_mapSet m k v p hp with h | h
  · exact Or.inr (hpc ▸ List.mem_map_of_mem _ h)
  · left
    rw [← hpc, h]

theorem timeInv_mapSet (m : Store) (k : String) (v : Contact) (T : Nat)
    (hv : v.createdAt ≤ v.updatedAt ∧ v.updatedAt ≤ T)
    (h : TimeInv m T) : TimeInv (mapSet m k v) T := by
  intro c hc
  rcases mem_values_mapSet m k v c hc with h' | h'
  · rw [h']; exact hv
  · exact h c h'

theorem timeInv_mono (m : Store) (T t : Nat) (hTt : T ≤ t)
    (h : TimeInv m T) : TimeInv m t :=
  fun c hc => ⟨(h c hc).1, le_trans (h c hc).2 hTt⟩

theorem mapGet_mem (m : Store) (k : String) (c : Contact)
    (h : mapGet m k = some c) : c ∈ mapValues m := by
  induction m with
  | nil => simp [mapGet] at h
  | cons p ps ih =>
    cases hpk : p.1 == k with
    | true =>
      simp only [mapGet, hpk] at h
      rw [if_pos trivial] at h
      have hpc : p.2 = c := by simpa using h
      simp [mapValues, ← hpc]
    | false =>
      simp only [mapGet, hpk] at h
      have h' : mapGet ps k = some c := by simpa using h
      have := ih h'
      simp only [mapValues, List.map_cons, List.mem_cons]
      exact Or.inr (by simpa [mapValues] using this)

theorem reachT_timeInv {m : Store} {T : Nat} (h : ReachT m T) : TimeInv m T := by
  induction h with
  | empty => intro c hc; simp [mapValues] at hc
  | create d rnd m T t _ hTt ih =>
    exact timeInv_mapSet m _ _ t ⟨le_refl t, le_refl t⟩ (timeInv_mono m T t hTt ih)
  | update id d m T t _ hTt ih =>
    cases hg : mapGet m id with
    | none => simpa [ContactDatabase.updateContact, hg] using timeInv_mono m T t hTt ih
    | some c =>
      simp only [ContactDatabase.updateContact, hg]
      have hc := ih c (mapGet_mem m id c hg)
      exact timeInv_mapSet m id _ t
        ⟨le_trans hc.1 (le_trans hc.2 hTt), le_refl t⟩
        (timeInv_mono m T t hTt ih)
  | toggle id m T t _ hTt ih =>
    cases hg : mapGet m id with
    | none =>
      simpa [ContactDatabase.toggleFavorite, hg] using timeInv_mono m T t hTt ih
    | some c =>
      simp only [ContactDatabase.toggleFavorite, hg]
      have hc := ih c (mapGet_mem m id c hg)
      exact timeInv_mapSet m id _ t
        ⟨le_trans hc.1 (le_trans hc.2 hTt), le_refl t⟩
        (timeInv_mono m T t hTt ih)
  | delete id m T _ ih =>
    intro c hc
    rcases List.mem_map.1 hc with ⟨p, hp, hpc⟩
    exact ih c (hpc ▸ List.mem_map_of_mem _ (mem_mapDelete m id p hp))
  | clear m T _ _ =>
    intro c hc
    simp [ContactDatabase.clearAll, mapValues] at hc

/-- An import record whose `createdAt` exceeds its `updatedAt`. -/
def badStampContact : Contact :=
  { id := "b", firstName := "F", lastName := "L", email := "", phone := ""
    company := none, jobTitle := none, address := none, notes := none
    avatar := none, tags := [], createdAt := 5, updatedAt := 3, isFavorite := false }

/-- C7 (counterexample): `importContacts` inserts records verbatim,
with no timestamp check, so one import from the empty collection
reaches a state holding a contact with `createdAt > updatedAt`. -/
theorem C7_timestamps_counterexample :
    ContactDatabase.importContacts (some [badStampContact]) [] =
      Except.ok (1, [("b", badStampContact)]) ∧
    ¬ badStampContact.createdAt ≤ badStampContact.updatedAt := by
  refine ⟨?_, ?_⟩ <;> decide

/-- C7 (amended): in every state reachable from empty by
create/update/toggleFavorite/delete/clearAll under a monotone clock,
every stored contact satisfies `createdAt ≤ updatedAt`;
`importContacts` is excluded because it inserts verbatim records that
can violate the invariant. -/
theorem C7_timestamps_invariant (m : Store) (T : Nat) (h : ReachT m T) :
    (ContactDatabase.getAllContacts m).all
      (fun c => c.createdAt ≤ c.updatedAt) = true := by
  rw [List.all_eq_true]
  intro c hc
  simpa using ((reachT_timeInv h) c hc).1

/-- C7 (witness). -/
theorem C7_timestamps_invariant_witness :
    (ContactDatabase.getAllContacts
        (ContactDatabase.updateContact
          (ContactDatabase.createContact formA 2 "r" []).2
          (generateId 2 "r") FormPatch.empty 7).2).all
      (fun c => c.createdAt ≤ c.updatedAt) = true :=
  C7_timestamps_invariant _ 7
    (ReachT.update (generateId 2 "r") FormPatch.empty _ 2 7
      (ReachT.create formA "r" [] 0 2 ReachT.empty (by decide)) (by decide))

/-
Claim C8.
-/

theorem tagGetD_bumpTag (acc : List (String × Nat)) (s t : String) :
    ContactDatabase.tagGetD (ContactDatabase.bumpTag acc s) t =
      ContactDatabase.tagGetD acc t + (if s == t then 1 else 0) := by
  induction acc with
  | nil =>
    simp only [ContactDatabase.bumpTag, ContactDatabase.tagGetD]
    cases hst : s == t <;> simp [hst]
  | cons p ps ih =>
    cases hps : p.1 == s with
    | true =>
      have hps' : p.1 = s := by simpa using hps
      simp only [ContactDatabase.bumpTag, hps]
      rw [if_pos trivial]
      cases hst : s == t with
      | true =>
        have hst' : s = t := by simpa using hst
        simp [ContactDatabase.tagGetD, hps', hst']
      | false =>
        have hpt : (p.1 == t) = false := by
          rw [hps']; exact hst
        simp [ContactDatabase.tagGetD, hpt, hst]
    | false =>
      simp only [ContactDatabase.bumpTag, hps]
      rw [if_neg (by decide : ¬ (false = true))]
      cases hpt : p.1 == t with
      | true =>
        have hpt' : p.1 = t := by simpa using hpt
        have hst : (s == t) = false := by
          have h1 : p.1 ≠ s := by simpa using hps
          exact beq_eq_false_iff_ne.2 (fun he => h1 (hpt'.trans he.symm))
        simp [ContactDatabase.tagGetD, hpt, hst]
      | false =>
        simp [ContactDatabase.tagGetD, hpt, ih]

theorem tagGetD_tagsFold (tags : List String) (acc : List (String × Nat))
    (t : String) :
    ContactDatabase.tagGetD (tags.foldl ContactDatabase.bumpTag acc) t =
      ContactDatabase.tagGetD acc t + tags.count t := by
  induction tags generalizing acc with
  | nil => simp
  | cons s rest ih =>
    simp only [List.foldl_cons, ih, tagGetD_bumpTag, List.count_cons]
    cases hst : s == t with
    | true =>
      have h' : s = t := by simpa using hst
      subst h'
      simp
      omega
    | false =>
      have h' : s ≠ t := by simpa using hst
      have h2 : (t == s) = false := beq_eq_false_iff_ne.2 (Ne.symm h')
      simp [hst, h2]

theorem tagGetD_statsFold (cs : List Contact) (acc : List (String × Nat))
    (t : String) :
    ContactDatabase.tagGetD
        (cs.foldl (fun acc c => c.tags.foldl ContactDatabase.bumpTag acc) acc) t =
      ContactDatabase.tagGetD acc t + (cs.map (fun c => c.tags.count t)).sum := by
  induction cs generalizing acc with
  | nil => simp
  | cons c rest ih =>
    simp only [List.foldl_cons, ih, tagGetD_tagsFold, List.map_cons, List.sum_cons]
    omega

/-- A contact carrying the same tag twice. -/
def dupTagContact : Contact :=
  { id := "d", firstName := "F", lastName := "L", email := "", phone := ""
    company := none, jobTitle := none, address := none, notes := none
    avatar := none, tags := ["a", "a"], createdAt := 0, updatedAt := 0
    isFavorite := false }

/-- Claim C8's byTag, literally: the number of contacts carrying the
tag. -/
def contactsCarrying (m : Store) (t : String) : Nat :=
  ((mapValues m).filter (fun c => c.tags.contains t)).length

/-- C8 (counterexample): `byTag` counts tag occurrences, not contacts:
a single contact with tags ["a", "a"] yields `byTag["a"] = 2`, while
the number of contacts carrying "a" is 1. -/
theorem C8_getStats_counterexample :
    ContactDatabase.tagGetD
        (ContactDatabase.getStats [("d", dupTagContact)]).byTag "a" = 2 ∧
    contactsCarrying [("d", dupTagContact)] "a" = 1 := by
  refine ⟨?_, ?_⟩ <;> decide

/-- C8 (amended): over the full collection (including contacts
inserted verbatim by import), `getStats` reports the collection size,
the number of favorites, the numbers of contacts with non-empty email
and non-empty phone, and `byTag` maps each tag to the total number of
occurrences of that tag across all contacts' tag lists — a contact
carrying a tag N times increments that tag's counter N times, so the
counter equals the number of carrying contacts only when tag lists are
duplicate-free. -/
theorem C8_getStats_counts (m : Store) :
    (ContactDatabase.getStats m).total =
      (ContactDatabase.getAllContacts m).length ∧
    (ContactDatabase.getStats m).favorites =
      (ContactDatabase.getAllContacts m).countP (fun c => c.isFavorite) ∧
    (ContactDatabase.getStats m).withEmail =
      (ContactDatabase.getAllContacts m).countP (fun c => c.email != "") ∧
    (ContactDatabase.getStats m).withPhone =
      (ContactDatabase.getAllContacts m).countP (fun c => c.phone != "") ∧
    ∀ t, ContactDatabase.tagGetD (ContactDatabase.getStats m).byTag t =
      ((ContactDatabase.getAllContacts m).map (fun c => c.tags.count t)).sum := by
  refine ⟨rfl, ?_, ?_, ?_, ?_⟩
  · simp [ContactDatabase.getStats, ContactDatabase.getAllContacts,
      List.countP_eq_length_filter]
  · simp [ContactDatabase.getStats, ContactDatabase.getAllContacts,
      List.countP_eq_length_filter]
  · simp [ContactDatabase.getStats, ContactDatabase.getAllContacts,
      List.countP_eq_length_filter]
  · intro t
    simp only [ContactDatabase.getStats, ContactDatabase.getAllContacts]
    rw [tagGetD_statsFold]
    simp [ContactDatabase.tagGetD]

/-
Claim C9.
-/

/-- Claim C9's write-failure assertion: a failing storage write makes
the mutating operation's promise reject (surface an error) instead of
resolving normally. -/
def writeFailureSurfaces : Prop :=
  ∀ (d : ContactFormData) (t : Nat) (rnd : String) (m : Store) (slot : Slot),
    (ContactDatabase.createContactP d t rnd m false slot).isOk = false

/-- C9 (counterexample): `saveToStorage` wraps the storage write in
`try/catch` and only logs the error, so a mutating operation with a
failing write still resolves successfully — the failure is swallowed,
not propagated. -/
theorem C9_persistence_counterexample : ¬ writeFailureSurfaces := by
  intro h
  exact absurd (h formA 0 "r" [] none) (by decide)

/-- C9 (amended): when the storage slot is absent, unreadable or
unparsable at initialization, the store starts from the empty
collection without surfacing an error; when the storage write fails
during a mutating operation, the in-memory change is applied, the
slot keeps its old contents, and the operation still returns its
normal result — the failure is caught and logged, never propagated to
the caller. -/
theorem C9_persistence_behavior :
    ContactDatabase.loadFromStorage none = [] ∧
    (∀ (d : ContactFormData) (t : Nat) (rnd : String) (m : Store) (slot : Slot),
      ContactDatabase.createContactP d t rnd m false slot =
        Except.ok ((ContactDatabase.createContact d t rnd m).1,
          (ContactDatabase.createContact d t rnd m).2, slot)) ∧
    (∀ (d : ContactFormData) (t : Nat) (rnd : String) (m : Store) (slot : Slot),
      ContactDatabase.createContactP d t rnd m true slot =
        Except.ok ((ContactDatabase.createContact d t rnd m).1,
          (ContactDatabase.createContact d t rnd m).2,
          some (ContactDatabase.createContact d t rnd m).2)) :=
  ⟨rfl, fun _ _ _ _ _ => rfl, fun _ _ _ _ _ => rfl⟩

/-
Claim C10.
-/

/-- One request from the store's operation vocabulary. -/
inductive Op where
  | create (d : ContactFormData) (t : Nat) (rnd : String)
  | get (id : String)
  | list
  | update (id : String) (d : FormPatch) (now : Nat)
  | delete (id : String)
  | search (f : ContactFilters)
  | toggle (id : String) (now : Nat)
  | stats
  | exportC
  | importC (input : Option (List Contact))
  | clear

/-- One observable operation result. -/
inductive Res where
  | contact (c : Contact)
  | optContact (c : Option Contact)
  | contacts (cs : List Contact)
  | flag (b : Bool)
  | stats (s : ContactDatabase.ContactStats)
  | imported (r : Except String Nat)
  | unit

/-- One step of the plain store. -/
def stepDB (m : Store) : Op → Res × Store
  | .create d t rnd =>
    let r := ContactDatabase.createContact d t rnd m
    (.contact r.1, r.2)
  | .get id => (.optContact (ContactDatabase.getContact m id), m)
  | .list => (.contacts (ContactDatabase.getAllContacts m), m)
  | .update id d now =>
    let r := ContactDatabase.updateContact m id d now
    (.optContact r.1, r.2)
  | .delete id =>
    let r := ContactDatabase.deleteContact m id
    (.flag r.1, r.2)
  | .search f => (.contacts (ContactDatabase.searchContacts f m), m)
  | .toggle id now =>
    let r := ContactDatabase.toggleFavorite m id now
    (.optContact r.1, r.2)
  | .stats => (.stats (ContactDatabase.getStats m), m)
  | .exportC => (.contacts (ContactDatabase.exportContacts m), m)
  | .importC input =>
    match ContactDatabase.importContacts input m with
    | Except.ok (n, m') => (.imported (Except.ok n), m')
    | Except.error e => (.imported (Except.error e), m)
  | .clear => (.unit, ContactDatabase.clearAll m)

/-- One step of the SQLite-flavored store. -/
def stepSQL (m : Store) : Op → Res × Store
  | .create d t rnd =>
    let r := SQLiteContactDatabase.createContact d t rnd m
    (.contact r.1, r.2)
  | .get id => (.optContact (SQLiteContactDatabase.getContact m id), m)
  | .list => (.contacts (SQLiteContactDatabase.getAllContacts m), m)
  | .update id d now =>
    let r := SQLiteContactDatabase.updateContact m id d now
    (.optContact r.1, r.2)
  | .delete id =>
    let r := SQLiteContactDatabase.deleteContact m id
    (.flag r.1, r.2)
  | .search f => (.contacts (SQLiteContactDatabase.searchContacts f m), m)
  | .toggle id now =>
    let r := SQLiteContactDatabase.toggleFavorite m id now
    (.optContact r.1, r.2)
  | .stats => (.stats (SQLiteContactDatabase.getStats m), m)
  | .exportC => (.contacts (SQLiteContactDatabase.exportContacts m), m)
  | .importC input =>
    match SQLiteContactDatabase.importContacts input m with
    | Except.ok (n, m') => (.imported (Except.ok n), m')
    | Except.error e => (.imported (Except.error e), m)
  | .clear => (.unit, SQLiteContactDatabase.clearAll m)

/-- Run a request sequence against the plain store, collecting every
result and the final collection. -/
def runDB : Store → List Op → List Res × Store
  | m, [] => ([], m)
  | m, o :: os =>
    let r := stepDB m o
    let rest := runDB r.2 os
    (r.1 :: rest.1, rest.2)

/-- Run a request sequence against the SQLite-flavored store. -/
def runSQL : Store → List Op → List Res × Store
  | m, [] => ([], m)
  | m, o :: os =>
    let r := stepSQL m o
    let rest := runSQL r.2 os
    (r.1 :: rest.1, rest.2)

theorem step_eq (m : Store) (o : Op) : stepDB m o = stepSQL m o := by
  cases o <;> rfl

theorem run_eq (ops : List Op) : ∀ m : Store, runDB m ops = runSQL m ops := by
  induction ops with
  | nil => intro m; rfl
  | cons o os ih =>
    intro m
    simp only [runDB, runSQL, step_eq, ih]

/-- C10: from the empty collection, any sequence of
create/get/list/update/delete/search/toggleFavorite/stats/export/
import/clearAll requests produces identical results and an identical
final collection on the plain store and on the SQLite-flavored store:
their data and query semantics coincide. -/
theorem C10_implementations_agree (ops : List Op) :
    runDB [] ops = runSQL [] ops :=
  run_eq ops []
